import Mathlib

/-!
Bitbucket Server repository resource.

A shallow embedding of `bitbucket/resource_repository.go`: the wire type
`Repository`, the schema-backed `ResourceData` record, and the four lifecycle
operations `resourceRepositoryCreate`, `resourceRepositoryUpdate`,
`resourceRepositoryRead` and `resourceRepositoryDelete`, followed by the
properties established about them.

Collaborators that the source file only imports are embedded by their
documented contracts:

* `schema.ResourceData` - `Get` returns nil for a key that the resource schema
  does not declare, `Set` on such a key returns an error and stores nothing;
* `strings.Split`, `fmt.Sprintf`, `fmt.Errorf`;
* `encoding/json` at the level of JSON documents (trees), with the
  `omitempty` tags of the source;
* the HTTP client, taken as a parameter.

Go strings are taken to be well-formed text and are embedded as `String`.
An operation returns a `Result`: how the call ended (nil, an error, or a
panic), the resource data it left, and the requests it made.
-/

namespace Bitbucket

/-! ## Errors and outcomes -/

/-- Go `error` values, told apart by where they were created. -/
inductive Error where
  /-- An error made by `fmt.Errorf` in this file. -/
  | Errorf (msg : String)
  /-- An error returned by the HTTP client. -/
  | client (msg : String)
  /-- An error returned by `ioutil.ReadAll` on a response body. -/
  | read (msg : String)
  /-- A `json.SyntaxError`: the bytes are not a JSON document. -/
  | jsonSyntax (msg : String)
  /-- A `json.UnmarshalTypeError`: JSON value of kind `value` met a Go field of type `goType`. -/
  | unmarshalType (value : String) (goType : String)
  deriving DecidableEq, Repr

/-- How a call of one of the operations ends: `return nil`, `return err`, or a
run-time panic (failed type assertion, nil pointer dereference). -/
inductive Outcome where
  | nil
  | error (e : Error)
  | panic
  deriving DecidableEq, Repr

/-! ## The wire type -/

/-- The Go struct `CloneUrl`. -/
structure CloneUrl where
  Href : String
  Name : String
  deriving DecidableEq, Repr

/-- The anonymous struct `Repository.Origin.Project`. -/
structure Project where
  Key : String
  Description : String
  deriving DecidableEq, Repr

/-- The anonymous struct `Repository.Origin.Links`. -/
structure Links where
  Clone : List CloneUrl
  deriving DecidableEq, Repr

/-- The anonymous struct `Repository.Origin`. -/
structure Origin where
  Project : Project
  Public : Bool
  Links : Links
  deriving DecidableEq, Repr

/-- The Go struct `Repository`. -/
structure Repository where
  SCM : String
  Forkable : Bool
  Name : String
  Slug : String
  ID : String
  Origin : Origin
  deriving DecidableEq, Repr

/-- The zero value of `CloneUrl`. -/
def CloneUrl.zero : CloneUrl := ⟨"", ""⟩

/-- The zero value of `Origin`. -/
def Origin.zero : Origin := ⟨⟨"", ""⟩, false, ⟨[]⟩⟩

/-- The zero value of `Repository` (`var repo Repository`). -/
def Repository.zero : Repository := ⟨"", false, "", "", "", Origin.zero⟩

/-! ## schema.ResourceData -/

/-- A dynamically typed value as passed to `d.Set` and returned by `d.Get`. -/
inductive Value where
  | str (s : String)
  | bool (b : Bool)
  deriving DecidableEq, Repr

/-- The resource data `d`: the identity (`d.Id()`) and one value for each of
the seven keys declared in the `Schema` map of `resourceRepository`. -/
structure ResourceData where
  id : String
  scmId : String
  project_key : String
  «public» : Bool
  forkable : Bool
  description : String
  name : String
  slug : String
  deriving DecidableEq, Repr

/-- The call `d.Id()`. -/
def Id (d : ResourceData) : String := d.id

/-- The call `d.SetId(v)`. -/
def SetId (d : ResourceData) (v : String) : ResourceData := { d with id := v }

/-- The call `d.Get(key)`: the value of a key declared in the schema, and nil
(`none`) for any other key. The library documents it so: "Get returns the data
for the given key, or nil if the key doesn't exist in the schema." The
identity is no key of the schema; it is read with `d.Id()`. -/
def Get (d : ResourceData) (key : String) : Option Value :=
  if key = "scmId" then some (.str d.scmId)
  else if key = "project_key" then some (.str d.project_key)
  else if key = "public" then some (.bool d.«public»)
  else if key = "forkable" then some (.bool d.forkable)
  else if key = "description" then some (.str d.description)
  else if key = "name" then some (.str d.name)
  else if key = "slug" then some (.str d.slug)
  else none

/-- The call `d.Set(key, value)` with the returned error dropped, as every call in the
source drops it: a declared key given a value of its type is stored; an
undeclared key, or a value of the wrong type, is an error and stores nothing. -/
def Set (d : ResourceData) (key : String) (value : Value) : ResourceData :=
  if key = "scmId" then
    match value with | .str s => { d with scmId := s } | _ => d
  else if key = "project_key" then
    match value with | .str s => { d with project_key := s } | _ => d
  else if key = "public" then
    match value with | .bool b => { d with «public» := b } | _ => d
  else if key = "forkable" then
    match value with | .bool b => { d with forkable := b } | _ => d
  else if key = "description" then
    match value with | .str s => { d with description := s } | _ => d
  else if key = "name" then
    match value with | .str s => { d with name := s } | _ => d
  else if key = "slug" then
    match value with | .str s => { d with slug := s } | _ => d
  else d

/-- The type assertion `v.(string)`: `none` is the run-time panic. -/
def assertString : Option Value → Option String
  | some (.str s) => some s
  | _ => none

/-- The type assertion `v.(bool)`: `none` is the run-time panic. -/
def assertBool : Option Value → Option Bool
  | some (.bool b) => some b
  | _ => none

/-! ## strings.Split and fmt.Sprintf -/

/-- Cuts a character list at every occurrence of `sep`; the pieces are one more
than the occurrences. -/
def splitChars (sep : Char) : List Char → List (List Char)
  | [] => [[]]
  | c :: cs =>
    if c = sep then [] :: splitChars sep cs
    else
      match splitChars sep cs with
      | [] => [[c]]
      | p :: ps => (c :: p) :: ps

/-- The call `strings.Split(s, sep)` for a one-character separator: all the substrings of
`s` between occurrences of `sep`. -/
def Split (s : String) (sep : Char) : List String :=
  (splitChars sep s.data).map String.mk

/-- The call `fmt.Sprintf("/rest/api/1.0/projects/%s/repos/%s", projectKey, repoSlug)`. -/
def repoPath (projectKey repoSlug : String) : String :=
  "/rest/api/1.0/projects/" ++ projectKey ++ "/repos/" ++ repoSlug

/-- The call `fmt.Sprintf("%s/%s", projectKey, repoSlug)`. -/
def idOf (projectKey repoSlug : String) : String :=
  projectKey ++ "/" ++ repoSlug

/-- The error of line 163. -/
def formatError : Error :=
  .Errorf "Incorrect ID format, should match `project_key/slug`"

/-! ## encoding/json -/

/-- A JSON document. -/
inductive Json where
  | null
  | bool (b : Bool)
  | num (n : Int)
  | str (s : String)
  | arr (items : List Json)
  | obj (members : List (String × Json))

/-- The `Value` field of a `json.UnmarshalTypeError` for a document. -/
def Json.kind : Json → String
  | .null => "null"
  | .bool _ => "bool"
  | .num _ => "number"
  | .str _ => "string"
  | .arr _ => "array"
  | .obj _ => "object"

/-- A string member tagged `omitempty`: left out when the string is empty. -/
def omitStr (key : String) (s : String) : List (String × Json) :=
  if s = "" then [] else [(key, .str s)]

/-- A bool member tagged `omitempty`: left out when the bool is false. -/
def omitBool (key : String) (b : Bool) : List (String × Json) :=
  if b then [(key, .bool b)] else []

/-- Encoding of a `CloneUrl`. -/
def encodeCloneUrl (c : CloneUrl) : Json :=
  .obj (omitStr "href" c.Href ++ omitStr "name" c.Name)

/-- Encoding of `Origin.Project`. -/
def encodeProject (p : Project) : Json :=
  .obj (omitStr "key" p.Key ++ omitStr "description" p.Description)

/-- Encoding of `Origin.Links`; the `clone` slice is left out when it has no
element. -/
def encodeLinks (l : Links) : Json :=
  .obj (if l.Clone = [] then [] else [("clone", .arr (l.Clone.map encodeCloneUrl))])

/-- Encoding of `Origin`. Its struct-typed members are always written:
`omitempty` never leaves out a struct. -/
def encodeOrigin (o : Origin) : Json :=
  .obj ([("project", encodeProject o.Project)] ++ omitBool "public" o.Public ++
    [("links", encodeLinks o.Links)])

/-- Encoding of a `Repository`, members in the order of the struct fields. -/
def encodeRepository (r : Repository) : Json :=
  .obj (omitStr "scmId" r.SCM ++ omitBool "forkable" r.Forkable ++ omitStr "name" r.Name ++
    omitStr "slug" r.Slug ++ omitStr "id" r.ID ++ [("origin", encodeOrigin r.Origin)])

/-- The bytes of a request or response body, by what a JSON reader makes of
them: the document they spell, or the syntax error when they spell none. -/
inductive Bytes where
  | invalid (msg : String)
  | doc (j : Json)

/-- The call `json.Marshal(repo)` (and `enc.Encode(repo)`): strings, bools, structs and
slices of them always encode, so the error is always nil. -/
def Marshal (r : Repository) : Except Error Bytes :=
  .ok (.doc (encodeRepository r))

/-- Case folding of one character of a member name: ASCII letters to lower
case, and the two non-ASCII characters that fold to ASCII letters (KELVIN SIGN to
`k`, LATIN SMALL LETTER LONG S to `s`). -/
def foldChar (c : Char) : Char :=
  if 65 ≤ c.toNat ∧ c.toNat ≤ 90 then Char.ofNat (c.toNat + 32)
  else if c.toNat = 0x212A then 'k'
  else if c.toNat = 0x17F then 's'
  else c

/-- Whether the member name `key` of a document selects the struct field tagged
`name`: the decoder matches names without regard to case. The tags within each
struct of the source stay distinct under folding, so at most one field is
selected. -/
def keyIs (key name : String) : Bool :=
  key.data.map foldChar = name.data.map foldChar

/-- Decoding into a string field holding `cur`: `null` leaves it alone. -/
def decodeString (cur : String) : Json → Except Error String
  | .str s => .ok s
  | .null => .ok cur
  | j => .error (.unmarshalType j.kind "string")

/-- Decoding into a bool field holding `cur`: `null` leaves it alone. -/
def decodeBool (cur : Bool) : Json → Except Error Bool
  | .bool b => .ok b
  | .null => .ok cur
  | j => .error (.unmarshalType j.kind "bool")

/-- Decoding into a struct holding `cur`: the members of an object are stored
one after the other with `step`, `null` leaves the struct alone. -/
def decodeStruct {σ : Type} (goType : String) (step : σ → String → Json → Except Error σ)
    (cur : σ) : Json → Except Error σ
  | .obj members => members.foldlM (fun acc kv => step acc kv.1 kv.2) cur
  | .null => .ok cur
  | j => .error (.unmarshalType j.kind goType)

/-- One member of a `CloneUrl` object. Unknown members are skipped. -/
def stepCloneUrl (c : CloneUrl) (key : String) (v : Json) : Except Error CloneUrl :=
  if keyIs key "href" then (decodeString c.Href v).map fun s => { c with Href := s }
  else if keyIs key "name" then (decodeString c.Name v).map fun s => { c with Name := s }
  else .ok c

/-- Decoding the elements of an array into a slice holding `cur`: element `i`
is decoded into the `i`-th element already there, or into a zero value. The
library decodes an element past the length of `cur` into whatever the spare
capacity of the slice still holds; that differs from a zero value only for a
document that repeats the `clone` member, with a shorter array before a longer
one, and only in `Clone`. -/
def decodeCloneElems : List CloneUrl → List Json → Except Error (List CloneUrl)
  | _, [] => .ok []
  | cur, j :: js =>
    match decodeStruct "CloneUrl" stepCloneUrl (cur.headD CloneUrl.zero) j with
    | .error e => .error e
    | .ok c =>
      match decodeCloneElems cur.tail js with
      | .error e => .error e
      | .ok cs => .ok (c :: cs)

/-- Decoding into the `[]CloneUrl` field holding `cur`: `null` empties it. -/
def decodeCloneSlice (cur : List CloneUrl) : Json → Except Error (List CloneUrl)
  | .arr items => decodeCloneElems cur items
  | .null => .ok []
  | j => .error (.unmarshalType j.kind "[]CloneUrl")

/-- One member of an `Origin.Project` object. -/
def stepProject (p : Project) (key : String) (v : Json) : Except Error Project :=
  if keyIs key "key" then (decodeString p.Key v).map fun s => { p with Key := s }
  else if keyIs key "description" then
    (decodeString p.Description v).map fun s => { p with Description := s }
  else .ok p

/-- One member of an `Origin.Links` object. -/
def stepLinks (l : Links) (key : String) (v : Json) : Except Error Links :=
  if keyIs key "clone" then (decodeCloneSlice l.Clone v).map fun cs => { l with Clone := cs }
  else .ok l

/-- One member of an `Origin` object. -/
def stepOrigin (o : Origin) (key : String) (v : Json) : Except Error Origin :=
  if keyIs key "project" then
    (decodeStruct "struct" stepProject o.Project v).map fun p => { o with Project := p }
  else if keyIs key "public" then (decodeBool o.Public v).map fun b => { o with Public := b }
  else if keyIs key "links" then
    (decodeStruct "struct" stepLinks o.Links v).map fun l => { o with Links := l }
  else .ok o

/-- One member of a `Repository` object. -/
def stepRepository (r : Repository) (key : String) (v : Json) : Except Error Repository :=
  if keyIs key "scmId" then (decodeString r.SCM v).map fun s => { r with SCM := s }
  else if keyIs key "forkable" then (decodeBool r.Forkable v).map fun b => { r with Forkable := b }
  else if keyIs key "name" then (decodeString r.Name v).map fun s => { r with Name := s }
  else if keyIs key "slug" then (decodeString r.Slug v).map fun s => { r with Slug := s }
  else if keyIs key "id" then (decodeString r.ID v).map fun s => { r with ID := s }
  else if keyIs key "origin" then
    (decodeStruct "struct" stepOrigin r.Origin v).map fun o => { r with Origin := o }
  else .ok r

/-- The call `json.Unmarshal(body, &repo)` into `var repo Repository`. -/
def Unmarshal : Bytes → Except Error Repository
  | .invalid msg => .error (.jsonSyntax msg)
  | .doc j => decodeStruct "Repository" stepRepository Repository.zero j

/-! ## The HTTP client -/

/-- The four request methods of `BitbucketClient`. -/
inductive Method where
  | GET
  | POST
  | PUT
  | DELETE
  deriving DecidableEq, Repr

/-- One call of the client: method, endpoint, and the payload buffer (`none`
for `Get` and `Delete`, which take no payload). -/
structure Request where
  method : Method
  path : String
  body : Option Bytes

/-- The body stream of a response: `ioutil.ReadAll` fails on it, or yields its
bytes. -/
inductive Body where
  | failing (msg : String)
  | bytes (b : Bytes)

/-- The call `ioutil.ReadAll(body)`. -/
def ReadAll : Body → Except Error Bytes
  | .failing msg => .error (.read msg)
  | .bytes b => .ok b

/-- The part of `*http.Response` that the source uses. -/
structure Response where
  StatusCode : Int
  Body : Body

/-- The pair `(*http.Response, error)` that a client call returns; either
component may be nil. -/
structure Reply where
  resp : Option Response
  err : Option String

/-- The client `m`: the source file only calls it, so it is a parameter. -/
abbrev Client := Request → Reply

/-! ## The operations -/

/-- What a call of an operation leaves behind: its return, the resource data,
and the requests it made, in order. -/
structure Result where
  ret : Outcome
  d : ResourceData
  requests : List Request

/-- Lines 83-96. Each `d.Get(k).(T)` is a checked assertion; `none` is the
panic of a failed one. -/
def newRepositoryFromResource (d : ResourceData) : Option Repository := do
  let name ← assertString (Get d "name")
  let slug ← assertString (Get d "slug")
  let forkable ← assertBool (Get d "forkable")
  let scm ← assertString (Get d "scmId")
  let id ← assertString (Get d "id")
  let description ← assertString (Get d "description")
  let key ← assertString (Get d "project_key")
  let pub ← assertBool (Get d "public")
  pure { SCM := scm, Forkable := forkable, Name := name, Slug := slug, ID := id,
         Origin := { Project := { Key := key, Description := description },
                     Public := pub, Links := { Clone := [] } } }

/-- The block that opens every operation (lines 108-112, 136-140, 167-171,
217-221): `slug`, or `name` when `slug` is empty. -/
def repoSlug (d : ResourceData) : Option String := do
  let repoSlug ← assertString (Get d "slug")
  if repoSlug = "" then assertString (Get d "name") else pure repoSlug

/-- Lines 215-230. -/
def resourceRepositoryDelete (d : ResourceData) (m : Client) : Result :=
  match repoSlug d, assertString (Get d "project_key") with
  | some slug, some key =>
    let req : Request := ⟨.DELETE, repoPath key slug, none⟩
    match (m req).err with
    | some e => ⟨.error (.client e), d, [req]⟩
    | none => ⟨.nil, d, [req]⟩
  | _, _ => ⟨.panic, d, []⟩

/-- Lines 156-165: the identity, when set, must split into two parts, which
are stored under `key` and `slug`. -/
def readIdentity (d : ResourceData) : Except Error ResourceData :=
  let id := Id d
  if id ≠ "" then
    match Split id '/' with
    | [p, s] => .ok (Set (Set d "key" (.str p)) "slug" (.str s))
    | _ => .error formatError
  else .ok d

/-- Lines 203-209: the loop over the clone links. -/
def storeCloneUrls (d : ResourceData) (clone : List CloneUrl) : ResourceData :=
  clone.foldl (fun d clone_url =>
    if clone_url.Name = "https" then Set d "clone_https" (.str clone_url.Href)
    else Set d "clone_ssh" (.str clone_url.Href)) d

/-- Lines 193-209: the stores made from a decoded response. -/
def storeRepository (d : ResourceData) (repo : Repository) : ResourceData :=
  let d := Set d "scmId" (.str repo.SCM)
  let d := Set d "public" (.bool repo.Origin.Public)
  let d := Set d "name" (.str repo.Name)
  let d := if repo.Slug ≠ "" ∧ repo.Name ≠ repo.Slug then Set d "slug" (.str repo.Slug) else d
  let d := Set d "forkable" (.bool repo.Forkable)
  let d := Set d "description" (.str repo.Origin.Project.Description)
  let d := Set d "project_key" (.str repo.Origin.Project.Key)
  storeCloneUrls d repo.Origin.Links.Clone

/-- Lines 167-212: the request and what is done with its response. The error
of `client.Get` is dropped (`repo_req, _ :=`); a nil response panics at
`repo_req.StatusCode`. -/
def readRemote (d : ResourceData) (m : Client) : Result :=
  match repoSlug d, assertString (Get d "project_key") with
  | some slug, some key =>
    let req : Request := ⟨.GET, repoPath key slug, none⟩
    match (m req).resp with
    | none => ⟨.panic, d, [req]⟩
    | some repo_req =>
      if repo_req.StatusCode = 200 then
        match ReadAll repo_req.Body with
        | .error readerr => ⟨.error readerr, d, [req]⟩
        | .ok body =>
          match Unmarshal body with
          | .error decodeerr => ⟨.error decodeerr, d, [req]⟩
          | .ok repo => ⟨.nil, storeRepository d repo, [req]⟩
      else ⟨.nil, d, [req]⟩
  | _, _ => ⟨.panic, d, []⟩

/-- Lines 155-213. -/
def resourceRepositoryRead (d : ResourceData) (m : Client) : Result :=
  match readIdentity d with
  | .error e => ⟨.error e, d, []⟩
  | .ok d => readRemote d m

/-- Lines 126-154. -/
def resourceRepositoryCreate (d : ResourceData) (m : Client) : Result :=
  match newRepositoryFromResource d with
  | none => ⟨.panic, d, []⟩
  | some repo =>
    match Marshal repo with
    | .error err => ⟨.error err, d, []⟩
    | .ok bytedata =>
      match repoSlug d, assertString (Get d "project_key") with
      | some slug, some key =>
        let req : Request := ⟨.POST, repoPath key slug, some bytedata⟩
        match (m req).err with
        | some e => ⟨.error (.client e), d, [req]⟩
        | none =>
          match assertString (Get d "project_key") with
          | some key =>
            let r := resourceRepositoryRead (SetId d (idOf key slug)) m
            ⟨r.ret, r.d, req :: r.requests⟩
          | none => ⟨.panic, d, [req]⟩
      | _, _ => ⟨.panic, d, []⟩

/-- Lines 98-124. The error of `enc.Encode` is dropped; a failed encoding
would leave the payload buffer without bytes. -/
def resourceRepositoryUpdate (d : ResourceData) (m : Client) : Result :=
  match newRepositoryFromResource d with
  | none => ⟨.panic, d, []⟩
  | some repository =>
    let jsonpayload : Option Bytes :=
      match Marshal repository with
      | .ok b => some b
      | .error _ => none
    match repoSlug d, assertString (Get d "project_key") with
    | some slug, some key =>
      let req : Request := ⟨.PUT, repoPath key slug, jsonpayload⟩
      match (m req).err with
      | some e => ⟨.error (.client e), d, [req]⟩
      | none =>
        let r := resourceRepositoryRead d m
        ⟨r.ret, r.d, req :: r.requests⟩
    | _, _ => ⟨.panic, d, []⟩

/-- The method and path of every request of a result, in order. -/
def Result.calls (r : Result) : List (Method × String) :=
  r.requests.map fun q => (q.method, q.path)

/-! ## Auxiliary definitions and concrete inputs -/

/-- The request that `readRemote` makes for `d`. -/
def getRequest (d : ResourceData) : Request :=
  ⟨.GET, repoPath d.project_key (if d.slug = "" then d.name else d.slug), none⟩

/-- Errors that the JSON decoder makes. -/
def Error.isDecode : Error → Bool
  | .jsonSyntax _ => true
  | .unmarshalType _ _ => true
  | _ => false

/-- The configuration `{name:"repo1", project_key:"PROJ"}` with the schema
defaults and no identity. -/
def repo1 : ResourceData :=
  { id := "", scmId := "git", project_key := "PROJ", «public» := true, forkable := false,
    description := "", name := "repo1", slug := "" }

/-- A client that answers every request with the given status and body, and no
error. -/
def answering (status : Int) (body : Body) : Client :=
  fun _ => ⟨some ⟨status, body⟩, none⟩

/-- A client that answers every request with the given status and the given
error. -/
def failing (status : Int) (msg : String) : Client :=
  fun _ => ⟨some ⟨status, .failing ""⟩, some msg⟩

/-- The body `{"name":"srv","slug":"srv-1","scmId":"hg","forkable":true,
"origin":{"project":{"key":"SRV","description":"remote"}}}`. -/
def bodySrv : Bytes :=
  .doc (.obj [("name", .str "srv"), ("slug", .str "srv-1"), ("scmId", .str "hg"),
    ("forkable", .bool true),
    ("origin", .obj [("project", .obj [("key", .str "SRV"), ("description", .str "remote")])])])

/-- The repository that `bodySrv` decodes to. -/
def repoSrv : Repository :=
  { SCM := "hg", Forkable := true, Name := "srv", Slug := "srv-1", ID := "",
    Origin := { Project := { Key := "SRV", Description := "remote" }, Public := false,
                Links := { Clone := [] } } }

/-- The configuration `repo1` with the slug `old`. -/
def repo1Old : ResourceData := { repo1 with slug := "old" }

/-- The body `{"name":"x"}`: a repository whose slug is empty. -/
def bodyNoSlug : Bytes := .doc (.obj [("name", .str "x")])

/-- The repository that `bodyNoSlug` decodes to. -/
def repoNoSlug : Repository := { Repository.zero with Name := "x" }

/-- The configuration `repo1Old` with the identity `PROJ/new`. -/
def repo1Moved : ResourceData := { repo1Old with id := "PROJ/new" }

/-- The resource data of an import: the identity `proj/slug` and nothing else. -/
def imported : ResourceData :=
  { id := "proj/slug", scmId := "", project_key := "", «public» := false, forkable := false,
    description := "", name := "", slug := "" }

/-- The body `{"name":"repo1","origin":{"links":{"clone":[{"href":"https://x",
"name":"https"},{"href":"ssh://x","name":"ssh"}]}}}`. -/
def bodyClone : Bytes :=
  .doc (.obj [("name", .str "repo1"),
    ("origin", .obj [("links", .obj [("clone", .arr [
      .obj [("href", .str "https://x"), ("name", .str "https")],
      .obj [("href", .str "ssh://x"), ("name", .str "ssh")]])])])])

/-- The repository that `bodyClone` decodes to. -/
def repoClone : Repository :=
  { Repository.zero with
    Name := "repo1"
    Origin := { Origin.zero with
      Links := { Clone := [⟨"https://x", "https"⟩, ⟨"ssh://x", "ssh"⟩] } } }

/-- A client that answers every request with no response and the given error. -/
def unreachable (msg : String) : Client :=
  fun _ => ⟨none, some msg⟩

/-! ## Basic facts -/

theorem repoSlug_eq (d : ResourceData) :
    repoSlug d = some (if d.slug = "" then d.name else d.slug) := by
  simp [repoSlug, Get, assertString]
  split <;> simp_all

theorem project_key_eq (d : ResourceData) :
    assertString (Get d "project_key") = some d.project_key := by
  simp [Get, assertString]

theorem readRemote_eq (d : ResourceData) (m : Client) :
    readRemote d m =
      match (m (getRequest d)).resp with
      | none => ⟨.panic, d, [getRequest d]⟩
      | some repo_req =>
        if repo_req.StatusCode = 200 then
          match ReadAll repo_req.Body with
          | .error readerr => ⟨.error readerr, d, [getRequest d]⟩
          | .ok body =>
            match Unmarshal body with
            | .error decodeerr => ⟨.error decodeerr, d, [getRequest d]⟩
            | .ok repo => ⟨.nil, storeRepository d repo, [getRequest d]⟩
        else ⟨.nil, d, [getRequest d]⟩ := by
  simp only [readRemote, repoSlug_eq, project_key_eq, getRequest]

theorem Set_key (d : ResourceData) (v : Value) : Set d "key" v = d := by
  simp [Set]

theorem Set_slug (d : ResourceData) (s : String) : Set d "slug" (.str s) = { d with slug := s } := by
  simp [Set]

theorem newRepositoryFromResource_none (d : ResourceData) : newRepositoryFromResource d = none := by
  simp [newRepositoryFromResource, Get, assertString, assertBool]

theorem splitChars_ne_nil (sep : Char) (cs : List Char) : splitChars sep cs ≠ [] := by
  induction cs with
  | nil => simp [splitChars]
  | cons c cs ih =>
    unfold splitChars
    split
    · simp
    · split <;> simp

theorem splitChars_length (sep : Char) (cs : List Char) :
    (splitChars sep cs).length = cs.count sep + 1 := by
  induction cs with
  | nil => simp [splitChars]
  | cons c cs ih =>
    unfold splitChars
    by_cases h : c = sep
    · subst h
      simp [ih]
    · have hne : (c == sep) = false := by simpa using h
      simp only [h, if_false]
      split
      · next hnil => exact absurd hnil (splitChars_ne_nil sep cs)
      · next p ps hps =>
        rw [hps] at ih
        simp [List.count_cons, hne] at ih ⊢
        omega

theorem Split_length (s : String) (sep : Char) :
    (Split s sep).length = s.data.count sep + 1 := by
  simp [Split, splitChars_length]

theorem readIdentity_error (d : ResourceData) (e : Error) :
    readIdentity d = .error e ↔ e = formatError ∧ d.id ≠ "" ∧ (Split d.id '/').length ≠ 2 := by
  unfold readIdentity Id
  by_cases hid : d.id = ""
  · simp [hid]
  · simp only [ne_eq, hid, not_false_eq_true, if_true, true_and]
    split
    · next p s h => simp [h]
    · next h =>
      constructor
      · intro he
        injection he with he
        refine ⟨he.symm, ?_⟩
        intro hlen
        match hs : Split d.id '/', hlen with
        | [p, s], _ => exact h p s hs
      · rintro ⟨rfl, _⟩
        rfl

theorem readIdentity_ok (d d1 : ResourceData) :
    readIdentity d = .ok d1 ↔
      (d.id = "" ∧ d1 = d) ∨
      (d.id ≠ "" ∧ ∃ p s, Split d.id '/' = [p, s] ∧ d1 = { d with slug := s }) := by
  unfold readIdentity Id
  by_cases hid : d.id = ""
  · simp [hid, eq_comm]
  · simp only [ne_eq, hid, not_false_eq_true, if_true, true_and, false_and, false_or]
    split
    · next p s h =>
      simp only [Set_key, Set_slug, Except.ok.injEq]
      constructor
      · intro h1
        exact ⟨p, s, h, h1.symm⟩
      · rintro ⟨p1, s1, h1, h2⟩
        rw [h] at h1
        simp only [List.cons.injEq, and_true] at h1
        rw [h2, h1.2]
    · next h =>
      constructor
      · intro h1
        cases h1
      · rintro ⟨p1, s1, h1, _⟩
        exact absurd h1 (h p1 s1)

theorem map_error {α β : Type} (x : Except Error α) (f : α → β) (e : Error) :
    x.map f = .error e ↔ x = .error e := by
  cases x <;> simp [Except.map]

theorem decodeString_error (cur : String) (j : Json) (e : Error)
    (h : decodeString cur j = .error e) : e.isDecode = true := by
  cases j <;> simp [decodeString] at h <;> subst h <;> rfl

theorem decodeBool_error (cur : Bool) (j : Json) (e : Error)
    (h : decodeBool cur j = .error e) : e.isDecode = true := by
  cases j <;> simp [decodeBool] at h <;> subst h <;> rfl

theorem foldlM_error {σ : Type} (step : σ → String → Json → Except Error σ)
    (hstep : ∀ acc k v e, step acc k v = .error e → e.isDecode = true)
    (members : List (String × Json)) (cur : σ) (e : Error)
    (h : members.foldlM (fun acc kv => step acc kv.1 kv.2) cur = .error e) :
    e.isDecode = true := by
  induction members generalizing cur with
  | nil => simp [pure, Except.pure] at h
  | cons kv rest ih =>
    rw [List.foldlM_cons] at h
    cases hs : step cur kv.1 kv.2 with
    | error e1 =>
      rw [hs] at h
      simp only [bind, Except.bind] at h
      injection h with h
      subst h
      exact hstep _ _ _ _ hs
    | ok acc =>
      rw [hs] at h
      exact ih acc h

theorem decodeStruct_error {σ : Type} (goType : String)
    (step : σ → String → Json → Except Error σ)
    (hstep : ∀ acc k v e, step acc k v = .error e → e.isDecode = true)
    (cur : σ) (j : Json) (e : Error) (h : decodeStruct goType step cur j = .error e) :
    e.isDecode = true := by
  cases j with
  | obj members => exact foldlM_error step hstep members cur e h
  | null => simp [decodeStruct] at h
  | bool b => simp [decodeStruct] at h; subst h; rfl
  | num n => simp [decodeStruct] at h; subst h; rfl
  | str s => simp [decodeStruct] at h; subst h; rfl
  | arr items => simp [decodeStruct] at h; subst h; rfl

theorem stepCloneUrl_error (c : CloneUrl) (k : String) (v : Json) (e : Error)
    (h : stepCloneUrl c k v = .error e) : e.isDecode = true := by
  unfold stepCloneUrl at h
  split at h
  · exact decodeString_error _ _ _ ((map_error _ _ _).1 h)
  · split at h
    · exact decodeString_error _ _ _ ((map_error _ _ _).1 h)
    · cases h

theorem decodeCloneElems_error (cur : List CloneUrl) (items : List Json) (e : Error)
    (h : decodeCloneElems cur items = .error e) : e.isDecode = true := by
  induction items generalizing cur with
  | nil => simp [decodeCloneElems] at h
  | cons j js ih =>
    unfold decodeCloneElems at h
    split at h
    · next e1 h1 =>
      injection h with h
      subst h
      exact decodeStruct_error _ _ stepCloneUrl_error _ _ _ h1
    · split at h
      · next e2 h2 =>
        injection h with h
        subst h
        exact ih _ h2
      · cases h

theorem decodeCloneSlice_error (cur : List CloneUrl) (j : Json) (e : Error)
    (h : decodeCloneSlice cur j = .error e) : e.isDecode = true := by
  cases j with
  | arr items => exact decodeCloneElems_error cur items e h
  | null => simp [decodeCloneSlice] at h
  | bool b => simp [decodeCloneSlice] at h; subst h; rfl
  | num n => simp [decodeCloneSlice] at h; subst h; rfl
  | str s => simp [decodeCloneSlice] at h; subst h; rfl
  | obj ms => simp [decodeCloneSlice] at h; subst h; rfl

theorem stepProject_error (p : Project) (k : String) (v : Json) (e : Error)
    (h : stepProject p k v = .error e) : e.isDecode = true := by
  unfold stepProject at h
  split at h
  · exact decodeString_error _ _ _ ((map_error _ _ _).1 h)
  · split at h
    · exact decodeString_error _ _ _ ((map_error _ _ _).1 h)
    · cases h

theorem stepLinks_error (l : Links) (k : String) (v : Json) (e : Error)
    (h : stepLinks l k v = .error e) : e.isDecode = true := by
  unfold stepLinks at h
  split at h
  · exact decodeCloneSlice_error _ _ _ ((map_error _ _ _).1 h)
  · cases h

theorem stepOrigin_error (o : Origin) (k : String) (v : Json) (e : Error)
    (h : stepOrigin o k v = .error e) : e.isDecode = true := by
  unfold stepOrigin at h
  split at h
  · exact decodeStruct_error _ _ stepProject_error _ _ _ ((map_error _ _ _).1 h)
  · split at h
    · exact decodeBool_error _ _ _ ((map_error _ _ _).1 h)
    · split at h
      · exact decodeStruct_error _ _ stepLinks_error _ _ _ ((map_error _ _ _).1 h)
      · cases h

theorem stepRepository_error (r : Repository) (k : String) (v : Json) (e : Error)
    (h : stepRepository r k v = .error e) : e.isDecode = true := by
  unfold stepRepository at h
  split at h
  · exact decodeString_error _ _ _ ((map_error _ _ _).1 h)
  · split at h
    · exact decodeBool_error _ _ _ ((map_error _ _ _).1 h)
    · split at h
      · exact decodeString_error _ _ _ ((map_error _ _ _).1 h)
      · split at h
        · exact decodeString_error _ _ _ ((map_error _ _ _).1 h)
        · split at h
          · exact decodeString_error _ _ _ ((map_error _ _ _).1 h)
          · split at h
            · exact decodeStruct_error _ _ stepOrigin_error _ _ _ ((map_error _ _ _).1 h)
            · cases h

theorem Unmarshal_error (b : Bytes) (e : Error) (h : Unmarshal b = .error e) :
    e.isDecode = true := by
  cases b with
  | invalid msg => simp [Unmarshal] at h; subst h; rfl
  | doc j => exact decodeStruct_error _ _ stepRepository_error _ _ _ h

theorem ReadAll_error (b : Body) (e : Error) (h : ReadAll b = .error e) : ∃ msg, e = .read msg := by
  cases b with
  | failing msg => simp [ReadAll] at h; exact ⟨msg, h.symm⟩
  | bytes b => simp [ReadAll] at h

theorem readRemote_ret_ne_format (d : ResourceData) (m : Client) :
    (readRemote d m).ret ≠ .error formatError := by
  rw [readRemote_eq]
  split
  · simp
  · split
    · split
      · next readerr h =>
        obtain ⟨msg, rfl⟩ := ReadAll_error _ _ h
        simp [formatError]
      · split
        · next decodeerr h =>
          have hd := Unmarshal_error _ _ h
          intro heq
          simp only [Outcome.error.injEq] at heq
          rw [heq] at hd
          simp [formatError, Error.isDecode] at hd
        · simp
    · simp

theorem readRemote_requests (d : ResourceData) (m : Client) :
    (readRemote d m).requests = [getRequest d] := by
  rw [readRemote_eq]
  split
  · rfl
  · split
    · split
      · rfl
      · split <;> rfl
    · rfl

/-! ## Identity format (C2) -/

/-- C2: Read fails with the format error exactly when the identity is set and
does not split on "/" into two parts, which is when it does not hold exactly
one "/"; when it so fails it has made no request; "proj/slug" splits into two
parts, "proj" and "a/b/c" do not; an empty identity never gives the error. -/
theorem read_format_error_iff (d : ResourceData) (m : Client) :
    ((resourceRepositoryRead d m).ret = .error formatError ↔
        d.id ≠ "" ∧ (Split d.id '/').length ≠ 2) ∧
    ((Split d.id '/').length = 2 ↔ d.id.data.count '/' = 1) ∧
    ((resourceRepositoryRead d m).ret = .error formatError →
        (resourceRepositoryRead d m).requests = []) ∧
    (Split "proj/slug" '/').length = 2 ∧ (Split "proj" '/').length ≠ 2 ∧
    (Split "a/b/c" '/').length ≠ 2 := by
  have key : (resourceRepositoryRead d m).ret = .error formatError ↔
      d.id ≠ "" ∧ (Split d.id '/').length ≠ 2 := by
    unfold resourceRepositoryRead
    cases h : readIdentity d with
    | error e =>
      have he := (readIdentity_error d e).1 h
      simp only [Outcome.error.injEq]
      exact ⟨fun _ => he.2, fun _ => he.1⟩
    | ok d1 =>
      simp only
      constructor
      · intro hret
        exact absurd hret (readRemote_ret_ne_format d1 m)
      · intro hbad
        have : readIdentity d = .error formatError := (readIdentity_error d formatError).2 ⟨rfl, hbad⟩
        rw [h] at this
        cases this
  refine ⟨key, ?_, ?_, by decide, by decide, by decide⟩
  · rw [Split_length]
    omega
  · intro hret
    have hbad := key.1 hret
    have : readIdentity d = .error formatError := (readIdentity_error d formatError).2 ⟨rfl, hbad⟩
    simp [resourceRepositoryRead, this]

/-- Witness for C2 at the identity "a/b/c". -/
theorem read_format_error_iff_witness :
    (resourceRepositoryRead ⟨"a/b/c", "git", "PROJ", true, false, "", "repo1", ""⟩
        (fun _ => ⟨none, none⟩)).ret = .error formatError ∧
    (resourceRepositoryRead ⟨"a/b/c", "git", "PROJ", true, false, "", "repo1", ""⟩
        (fun _ => ⟨none, none⟩)).requests = [] :=
  have h := read_format_error_iff ⟨"a/b/c", "git", "PROJ", true, false, "", "repo1", ""⟩
    (fun _ => ⟨none, none⟩)
  have hret := h.1.2 ⟨by decide, by decide⟩
  ⟨hret, h.2.2.1 hret⟩

/-! ## What a read stores -/

theorem storeCloneUrls_eq (d : ResourceData) (clone : List CloneUrl) :
    storeCloneUrls d clone = d := by
  unfold storeCloneUrls
  induction clone with
  | nil => rfl
  | cons c cs ih =>
    rw [List.foldl_cons]
    have h : (if c.Name = "https" then Set d "clone_https" (.str c.Href)
        else Set d "clone_ssh" (.str c.Href)) = d := by
      split <;> simp [Set]
    rw [h]
    exact ih

theorem storeRepository_eq (d : ResourceData) (repo : Repository) :
    storeRepository d repo =
      { id := d.id, scmId := repo.SCM, project_key := repo.Origin.Project.Key,
        «public» := repo.Origin.Public, forkable := repo.Forkable,
        description := repo.Origin.Project.Description, name := repo.Name,
        slug := if repo.Slug ≠ "" ∧ repo.Name ≠ repo.Slug then repo.Slug else d.slug } := by
  unfold storeRepository
  simp only [storeCloneUrls_eq]
  split <;> simp [Set]

/-- What Read does once the client has answered its request `q` with a
response of status 200 whose body decodes to `r`. -/
theorem read_of_ok (d : ResourceData) (m : Client) (q : Request) (resp : Response)
    (body : Bytes) (r : Repository)
    (hq : (resourceRepositoryRead d m).requests = [q]) (hresp : (m q).resp = some resp)
    (h200 : resp.StatusCode = 200) (hbody : ReadAll resp.Body = .ok body)
    (hr : Unmarshal body = .ok r) :
    ∃ d1, readIdentity d = .ok d1 ∧
      resourceRepositoryRead d m = ⟨.nil, storeRepository d1 r, [q]⟩ := by
  unfold resourceRepositoryRead at hq ⊢
  cases h : readIdentity d with
  | error e => simp [h] at hq
  | ok d1 =>
    refine ⟨d1, rfl, ?_⟩
    simp only [h] at hq ⊢
    rw [readRemote_requests] at hq
    simp only [List.cons.injEq, and_true] at hq
    rw [readRemote_eq, hq, hresp]
    simp only [h200, if_true, hbody, hr]

/-- What Read does once the client has answered its request `q` with a
response of another status than 200. -/
theorem read_of_not_ok (d : ResourceData) (m : Client) (q : Request) (resp : Response)
    (hq : (resourceRepositoryRead d m).requests = [q]) (hresp : (m q).resp = some resp)
    (hstatus : resp.StatusCode ≠ 200) :
    ∃ d1, readIdentity d = .ok d1 ∧ resourceRepositoryRead d m = ⟨.nil, d1, [q]⟩ := by
  unfold resourceRepositoryRead at hq ⊢
  cases h : readIdentity d with
  | error e => simp [h] at hq
  | ok d1 =>
    refine ⟨d1, rfl, ?_⟩
    simp only [h] at hq ⊢
    rw [readRemote_requests] at hq
    simp only [List.cons.injEq, and_true] at hq
    rw [readRemote_eq, hq, hresp]
    simp only [hstatus, if_false]

theorem Unmarshal_bodySrv : Unmarshal bodySrv = .ok repoSrv := by
  rfl

/-! ## Fields overwritten by a successful read (C5) -/

/-- C5: when the client answers the request of Read with status 200 and a body
that decodes to `r`, Read returns nil and the fields scmId, public, name,
forkable, description and project_key hold the values of `r`. -/
theorem read_ok_overwrites (d : ResourceData) (m : Client) (q : Request) (resp : Response)
    (body : Bytes) (r : Repository)
    (hq : (resourceRepositoryRead d m).requests = [q]) (hresp : (m q).resp = some resp)
    (h200 : resp.StatusCode = 200) (hbody : ReadAll resp.Body = .ok body)
    (hr : Unmarshal body = .ok r) :
    (resourceRepositoryRead d m).ret = .nil ∧
    (resourceRepositoryRead d m).d.scmId = r.SCM ∧
    (resourceRepositoryRead d m).d.«public» = r.Origin.Public ∧
    (resourceRepositoryRead d m).d.name = r.Name ∧
    (resourceRepositoryRead d m).d.forkable = r.Forkable ∧
    (resourceRepositoryRead d m).d.description = r.Origin.Project.Description ∧
    (resourceRepositoryRead d m).d.project_key = r.Origin.Project.Key := by
  obtain ⟨d1, _, h⟩ := read_of_ok d m q resp body r hq hresp h200 hbody hr
  rw [h, storeRepository_eq]
  exact ⟨rfl, rfl, rfl, rfl, rfl, rfl, rfl⟩

/-- Witness for C5: `repo1` read against a server that answers with `bodySrv`. -/
theorem read_ok_overwrites_witness :
    (resourceRepositoryRead repo1 (answering 200 (.bytes bodySrv))).ret = .nil ∧
    (resourceRepositoryRead repo1 (answering 200 (.bytes bodySrv))).d.scmId = "hg" ∧
    (resourceRepositoryRead repo1 (answering 200 (.bytes bodySrv))).d.«public» = false ∧
    (resourceRepositoryRead repo1 (answering 200 (.bytes bodySrv))).d.name = "srv" ∧
    (resourceRepositoryRead repo1 (answering 200 (.bytes bodySrv))).d.forkable = true ∧
    (resourceRepositoryRead repo1 (answering 200 (.bytes bodySrv))).d.description = "remote" ∧
    (resourceRepositoryRead repo1 (answering 200 (.bytes bodySrv))).d.project_key = "SRV" :=
  read_ok_overwrites repo1 (answering 200 (.bytes bodySrv)) (getRequest repo1)
    ⟨200, .bytes bodySrv⟩ bodySrv repoSrv rfl rfl rfl rfl Unmarshal_bodySrv

/-! ## The slug guard (C6) -/

/-- C6, as stated, fails: the response decodes to a repository whose slug ("")
differs from its name ("x"), and Read leaves the slug `old` in place instead of
storing the slug of the response. -/
theorem read_slug_guard_counterexample :
    Id repo1Old = "" ∧
    Unmarshal bodyNoSlug = .ok repoNoSlug ∧
    repoNoSlug.Slug ≠ repoNoSlug.Name ∧
    (resourceRepositoryRead repo1Old (answering 200 (.bytes bodyNoSlug))).ret = .nil ∧
    (resourceRepositoryRead repo1Old (answering 200 (.bytes bodyNoSlug))).d.slug = "old" ∧
    (resourceRepositoryRead repo1Old (answering 200 (.bytes bodyNoSlug))).d.slug ≠
      repoNoSlug.Slug := by
  refine ⟨rfl, rfl, by decide, by decide, by decide, by decide⟩

/-- C6, amended: with no identity set, after a read answered with status 200
and a body that decodes to `r`, the slug is unchanged when `r.Slug` equals
`r.Name` or is empty, and is `r.Slug` when `r.Slug` is non-empty and differs
from `r.Name`. -/
theorem read_slug_guard (d : ResourceData) (m : Client) (q : Request) (resp : Response)
    (body : Bytes) (r : Repository) (hid : d.id = "")
    (hq : (resourceRepositoryRead d m).requests = [q]) (hresp : (m q).resp = some resp)
    (h200 : resp.StatusCode = 200) (hbody : ReadAll resp.Body = .ok body)
    (hr : Unmarshal body = .ok r) :
    ((r.Slug = r.Name ∨ r.Slug = "") → (resourceRepositoryRead d m).d.slug = d.slug) ∧
    ((r.Slug ≠ "" ∧ r.Slug ≠ r.Name) → (resourceRepositoryRead d m).d.slug = r.Slug) := by
  obtain ⟨d1, hd1, h⟩ := read_of_ok d m q resp body r hq hresp h200 hbody hr
  have h1 : d1 = d := by
    rcases (readIdentity_ok d d1).1 hd1 with ⟨_, h1⟩ | ⟨hne, _⟩
    · exact h1
    · exact absurd hid hne
  subst h1
  rw [h, storeRepository_eq]
  constructor
  · rintro (heq | hempty)
    · simp [heq]
    · simp [hempty]
  · rintro ⟨hne, hdiff⟩
    have : r.Name ≠ r.Slug := fun h => hdiff h.symm
    simp [hne, this]

/-- Witness for the amended C6: `repo1Old` read against a server that answers
with `bodySrv` (slug `srv-1`, name `srv`) and against one that answers with
`bodyNoSlug`. -/
theorem read_slug_guard_witness :
    (resourceRepositoryRead repo1Old (answering 200 (.bytes bodySrv))).d.slug = "srv-1" ∧
    (resourceRepositoryRead repo1Old (answering 200 (.bytes bodyNoSlug))).d.slug = "old" :=
  ⟨(read_slug_guard repo1Old (answering 200 (.bytes bodySrv)) (getRequest repo1Old)
      ⟨200, .bytes bodySrv⟩ bodySrv repoSrv rfl rfl rfl rfl rfl Unmarshal_bodySrv).2
      ⟨by decide, by decide⟩,
   (read_slug_guard repo1Old (answering 200 (.bytes bodyNoSlug)) (getRequest repo1Old)
      ⟨200, .bytes bodyNoSlug⟩ bodyNoSlug repoNoSlug rfl rfl rfl rfl rfl rfl).1
      (Or.inr rfl)⟩

/-! ## Reads answered with another status than 200 (C9) -/

/-- C9, as stated, fails: the identity `PROJ/new` is well formed, the answer
has status 404, and Read returns nil having changed the slug from `old` to
`new`. -/
theorem read_not_ok_counterexample :
    (Split (Id repo1Moved) '/').length = 2 ∧
    (resourceRepositoryRead repo1Moved (answering 404 (.bytes bodyNoSlug))).ret = .nil ∧
    repo1Moved.slug = "old" ∧
    (resourceRepositoryRead repo1Moved (answering 404 (.bytes bodyNoSlug))).d.slug = "new" ∧
    (resourceRepositoryRead repo1Moved (answering 404 (.bytes bodyNoSlug))).d ≠ repo1Moved := by
  refine ⟨by decide, by decide, by decide, by decide, by decide⟩

/-- C9, amended: when the client answers the request of Read with no error
and a response of a status other than 200, Read returns nil and the identity,
scmId, public, forkable, description and name keep their values; when the
identity is empty, project_key and slug keep their values too; when the
identity splits in two, slug is its second part (nothing is said of
project_key then). -/
theorem read_not_ok_frame (d : ResourceData) (m : Client) (q : Request) (resp : Response)
    (hq : (resourceRepositoryRead d m).requests = [q]) (hresp : (m q).resp = some resp)
    (herr : (m q).err = none) (hstatus : resp.StatusCode ≠ 200) :
    (resourceRepositoryRead d m).ret = .nil ∧
    (resourceRepositoryRead d m).d.id = d.id ∧
    (resourceRepositoryRead d m).d.scmId = d.scmId ∧
    (resourceRepositoryRead d m).d.«public» = d.«public» ∧
    (resourceRepositoryRead d m).d.forkable = d.forkable ∧
    (resourceRepositoryRead d m).d.description = d.description ∧
    (resourceRepositoryRead d m).d.name = d.name ∧
    (d.id = "" → (resourceRepositoryRead d m).d.project_key = d.project_key ∧
      (resourceRepositoryRead d m).d.slug = d.slug) ∧
    (∀ p s, Split d.id '/' = [p, s] → (resourceRepositoryRead d m).d.slug = s) := by
  have _ := herr
  obtain ⟨d1, hd1, h⟩ := read_of_not_ok d m q resp hq hresp hstatus
  rw [h]
  rcases (readIdentity_ok d d1).1 hd1 with ⟨hid, h1⟩ | ⟨hne, p1, s1, hsplit, h1⟩
  · subst h1
    refine ⟨rfl, rfl, rfl, rfl, rfl, rfl, rfl, fun _ => ⟨rfl, rfl⟩, ?_⟩
    intro p s hs
    have hlen := congrArg List.length hs
    rw [Split_length, hid] at hlen
    simp at hlen
  · subst h1
    refine ⟨rfl, rfl, rfl, rfl, rfl, rfl, rfl, fun hid => absurd hid hne, ?_⟩
    intro p s hs
    rw [hsplit] at hs
    simp only [List.cons.injEq, and_true] at hs
    exact hs.2

/-- Witness for the amended C9 with a server answering 404 and no error: at
`repo1Moved` (identity `PROJ/new`) the slug becomes `new`; at `repo1Old` (no
identity) project_key and slug keep their values. -/
theorem read_not_ok_frame_witness :
    ((resourceRepositoryRead repo1Moved (answering 404 (.bytes bodyNoSlug))).ret = .nil ∧
      (resourceRepositoryRead repo1Moved (answering 404 (.bytes bodyNoSlug))).d.slug = "new") ∧
    ((resourceRepositoryRead repo1Old (answering 404 (.bytes bodyNoSlug))).ret = .nil ∧
      (resourceRepositoryRead repo1Old (answering 404 (.bytes bodyNoSlug))).d.project_key =
        "PROJ" ∧
      (resourceRepositoryRead repo1Old (answering 404 (.bytes bodyNoSlug))).d.slug = "old") :=
  have h := read_not_ok_frame repo1Moved (answering 404 (.bytes bodyNoSlug))
    (getRequest { repo1Moved with slug := "new" }) ⟨404, .bytes bodyNoSlug⟩ rfl rfl rfl
    (by decide)
  have g := read_not_ok_frame repo1Old (answering 404 (.bytes bodyNoSlug))
    (getRequest repo1Old) ⟨404, .bytes bodyNoSlug⟩ rfl rfl rfl (by decide)
  ⟨⟨h.1, h.2.2.2.2.2.2.2.2 "PROJ" "new" (by decide)⟩,
   ⟨g.1, (g.2.2.2.2.2.2.2.1 rfl).1, (g.2.2.2.2.2.2.2.1 rfl).2⟩⟩

/-! ## Create and Update -/

theorem create_panics (d : ResourceData) (m : Client) :
    resourceRepositoryCreate d m = ⟨.panic, d, []⟩ := by
  simp only [resourceRepositoryCreate, newRepositoryFromResource_none]

theorem update_panics (d : ResourceData) (m : Client) :
    resourceRepositoryUpdate d m = ⟨.panic, d, []⟩ := by
  simp only [resourceRepositoryUpdate, newRepositoryFromResource_none]

theorem delete_eq (d : ResourceData) (m : Client) :
    resourceRepositoryDelete d m =
      match (m ⟨.DELETE, repoPath d.project_key (if d.slug = "" then d.name else d.slug), none⟩).err with
      | some e =>
        ⟨.error (.client e), d,
          [⟨.DELETE, repoPath d.project_key (if d.slug = "" then d.name else d.slug), none⟩]⟩
      | none =>
        ⟨.nil, d,
          [⟨.DELETE, repoPath d.project_key (if d.slug = "" then d.name else d.slug), none⟩]⟩ := by
  simp only [resourceRepositoryDelete, repoSlug_eq, project_key_eq]

/-! ## Request paths (C1) -/

/-- C1 at `{name:"repo1", project_key:"PROJ", slug:""}`: Delete and Read make
one request each, to `/rest/api/1.0/projects/PROJ/repos/repo1`; Create and
Update panic in `newRepositoryFromResource`, at `d.Get("id").(string)`, and
make no request. -/
theorem lifecycle_paths_repo1 :
    (resourceRepositoryDelete repo1 (answering 200 (.bytes bodySrv))).calls =
      [(.DELETE, "/rest/api/1.0/projects/PROJ/repos/repo1")] ∧
    (resourceRepositoryRead repo1 (answering 200 (.bytes bodySrv))).calls =
      [(.GET, "/rest/api/1.0/projects/PROJ/repos/repo1")] ∧
    Get repo1 "id" = none ∧
    (resourceRepositoryCreate repo1 (answering 200 (.bytes bodySrv))).ret = .panic ∧
    (resourceRepositoryCreate repo1 (answering 200 (.bytes bodySrv))).calls = [] ∧
    (resourceRepositoryUpdate repo1 (answering 200 (.bytes bodySrv))).ret = .panic ∧
    (resourceRepositoryUpdate repo1 (answering 200 (.bytes bodySrv))).calls = [] := by
  refine ⟨by decide, by decide, by decide, by decide, by decide, by decide, by decide⟩

/-! ## Create, identity and the read that follows (C4) -/

/-- C4 at `{name:"repo1", project_key:"PROJ"}`: Create ends in the panic of
`newRepositoryFromResource` before its POST; no request is made and the
identity stays empty. -/
theorem create_repo1 :
    (resourceRepositoryCreate repo1 (answering 200 (.bytes bodySrv))).ret = .panic ∧
    (resourceRepositoryCreate repo1 (answering 200 (.bytes bodySrv))).calls = [] ∧
    Id (resourceRepositoryCreate repo1 (answering 200 (.bytes bodySrv))).d = "" := by
  refine ⟨by decide, by decide, by decide⟩

/-! ## Identity and project key (C7) -/

/-- C7 at the identity `proj/slug`: the first part is stored under `key`, which
the schema does not declare, so `project_key` keeps its value; the request goes
to `/rest/api/1.0/projects//repos/slug` for an import, and to
`/rest/api/1.0/projects/PROJ/repos/new` for `repo1Moved`. -/
theorem read_identity_project_key :
    Split (Id imported) '/' = ["proj", "slug"] ∧
    Get imported "key" = none ∧
    (resourceRepositoryRead imported (answering 404 (.bytes bodyNoSlug))).calls =
      [(.GET, "/rest/api/1.0/projects//repos/slug")] ∧
    (resourceRepositoryRead imported (answering 404 (.bytes bodyNoSlug))).d.project_key = "" ∧
    (resourceRepositoryRead imported (answering 404 (.bytes bodyNoSlug))).d.slug = "slug" ∧
    (resourceRepositoryRead { imported with project_key := "OTHER", slug := "old" }
        (answering 404 (.bytes bodyNoSlug))).calls =
      [(.GET, "/rest/api/1.0/projects/OTHER/repos/slug")] := by
  refine ⟨by decide, by decide, by decide, by decide, by decide, by decide⟩

/-! ## Clone links (C8) -/

/-- C8 at the clone links `[{href:"https://x", name:"https"}, {href:"ssh://x",
name:"ssh"}]`: the response decodes to them and Read returns nil, but the keys
`clone_https` and `clone_ssh` are not declared in the schema: no store under
them changes the record, and the record holds nothing under either. -/
theorem read_clone_links :
    Unmarshal bodyClone = .ok repoClone ∧
    (resourceRepositoryRead repo1 (answering 200 (.bytes bodyClone))).ret = .nil ∧
    Get (resourceRepositoryRead repo1 (answering 200 (.bytes bodyClone))).d "clone_https" = none ∧
    Get (resourceRepositoryRead repo1 (answering 200 (.bytes bodyClone))).d "clone_ssh" = none ∧
    storeCloneUrls repo1 repoClone.Origin.Links.Clone = repo1 := by
  refine ⟨rfl, by decide, by decide, by decide, by decide⟩

/-! ## Errors of the client (C10) -/

/-- C10 at `repo1`: Delete returns the error of the client, Read does not: it
drops the error of its GET, returning nil when the client also hands back a
response of status 500, and panicking when the client hands back no response. -/
theorem client_error_repo1 :
    (resourceRepositoryDelete repo1 (failing 500 "boom")).ret = .error (.client "boom") ∧
    (resourceRepositoryRead repo1 (failing 500 "boom")).calls =
      [(.GET, "/rest/api/1.0/projects/PROJ/repos/repo1")] ∧
    (resourceRepositoryRead repo1 (failing 500 "boom")).ret = .nil ∧
    (resourceRepositoryRead repo1 (unreachable "boom")).ret = .panic ∧
    (resourceRepositoryCreate repo1 (failing 500 "boom")).calls = [] ∧
    (resourceRepositoryUpdate repo1 (failing 500 "boom")).calls = [] := by
  refine ⟨by decide, by decide, by decide, by decide, by decide, by decide⟩

/-! ## Encoding and decoding (C3) -/

theorem foldlM_member {σ : Type} (step : σ → String → Json → Except Error σ) (k : String)
    (v : Json) (acc acc1 : σ) (rest : List (String × Json)) (h : step acc k v = .ok acc1) :
    ((k, v) :: rest).foldlM (fun a kv => step a kv.1 kv.2) acc =
      rest.foldlM (fun a kv => step a kv.1 kv.2) acc1 := by
  rw [List.foldlM_cons]
  simp only [h]
  rfl

theorem foldlM_omitStr {σ : Type} (step : σ → String → Json → Except Error σ) (k s : String)
    (acc acc1 : σ) (rest : List (String × Json)) (h : step acc k (.str s) = .ok acc1)
    (h0 : s = "" → acc1 = acc) :
    (omitStr k s ++ rest).foldlM (fun a kv => step a kv.1 kv.2) acc =
      rest.foldlM (fun a kv => step a kv.1 kv.2) acc1 := by
  unfold omitStr
  by_cases hs : s = ""
  · simp only [hs, if_true, List.nil_append]
    rw [h0 hs]
  · simp only [hs, if_false, List.singleton_append]
    exact foldlM_member step k _ acc acc1 rest h

theorem foldlM_omitBool {σ : Type} (step : σ → String → Json → Except Error σ) (k : String)
    (b : Bool) (acc acc1 : σ) (rest : List (String × Json)) (h : step acc k (.bool b) = .ok acc1)
    (h0 : b = false → acc1 = acc) :
    (omitBool k b ++ rest).foldlM (fun a kv => step a kv.1 kv.2) acc =
      rest.foldlM (fun a kv => step a kv.1 kv.2) acc1 := by
  unfold omitBool
  cases b with
  | false =>
    simp only [Bool.false_eq_true, if_false, List.nil_append]
    rw [h0 rfl]
  | true =>
    simp only [if_true, List.singleton_append]
    exact foldlM_member step k _ acc acc1 rest h

theorem decode_encodeCloneUrl (c : CloneUrl) :
    decodeStruct "CloneUrl" stepCloneUrl CloneUrl.zero (encodeCloneUrl c) = .ok c := by
  unfold encodeCloneUrl decodeStruct
  simp only
  rw [foldlM_omitStr stepCloneUrl "href" c.Href CloneUrl.zero ⟨c.Href, ""⟩ _ rfl
    (fun h => by rw [h]; rfl)]
  rw [← List.append_nil (omitStr "name" c.Name)]
  rw [foldlM_omitStr stepCloneUrl "name" c.Name ⟨c.Href, ""⟩ c [] rfl
    (fun h => by cases c; simp_all)]
  rfl

theorem decode_encodeCloneElems (cur : List CloneUrl) (hcur : cur = []) (l : List CloneUrl) :
    decodeCloneElems cur (l.map encodeCloneUrl) = .ok l := by
  subst hcur
  induction l with
  | nil => rfl
  | cons c cs ih =>
    rw [List.map_cons]
    unfold decodeCloneElems
    simp only [List.headD_nil, List.tail_nil, decode_encodeCloneUrl, ih]

theorem decode_encodeLinks (l : Links) :
    decodeStruct "struct" stepLinks ⟨[]⟩ (encodeLinks l) = .ok l := by
  unfold encodeLinks decodeStruct
  by_cases h : l.Clone = []
  · simp only [h, if_true, List.foldlM_nil]
    cases l
    simp_all
    rfl
  · simp only [h, if_false]
    have hstep : stepLinks ⟨[]⟩ "clone" (.arr (l.Clone.map encodeCloneUrl)) = .ok l := by
      have hk : keyIs "clone" "clone" = true := by decide
      simp only [stepLinks, hk, if_true, decodeCloneSlice, decode_encodeCloneElems [] rfl]
      rfl
    rw [foldlM_member stepLinks "clone" _ ⟨[]⟩ l [] hstep]
    rfl

theorem decode_encodeProject (p : Project) :
    decodeStruct "struct" stepProject ⟨"", ""⟩ (encodeProject p) = .ok p := by
  unfold encodeProject decodeStruct
  simp only
  rw [foldlM_omitStr stepProject "key" p.Key ⟨"", ""⟩ ⟨p.Key, ""⟩ _ rfl
    (fun h => by rw [h])]
  rw [← List.append_nil (omitStr "description" p.Description)]
  rw [foldlM_omitStr stepProject "description" p.Description ⟨p.Key, ""⟩ p [] rfl
    (fun h => by cases p; simp_all)]
  rfl

theorem decode_encodeOrigin (o : Origin) :
    decodeStruct "struct" stepOrigin Origin.zero (encodeOrigin o) = .ok o := by
  unfold encodeOrigin decodeStruct
  simp only [List.append_assoc, List.singleton_append, List.cons_append, List.nil_append]
  have h1 : stepOrigin Origin.zero "project" (encodeProject o.Project) =
      .ok ⟨o.Project, false, ⟨[]⟩⟩ := by
    have hk : keyIs "project" "project" = true := by decide
    simp only [stepOrigin, hk, if_true, Origin.zero, decode_encodeProject]
    rfl
  rw [foldlM_member stepOrigin "project" _ _ _ _ h1]
  rw [foldlM_omitBool stepOrigin "public" o.Public ⟨o.Project, false, ⟨[]⟩⟩
    ⟨o.Project, o.Public, ⟨[]⟩⟩ _ rfl (fun h => by rw [h])]
  have h3 : stepOrigin ⟨o.Project, o.Public, ⟨[]⟩⟩ "links" (encodeLinks o.Links) = .ok o := by
    have hk1 : keyIs "links" "project" = false := by decide
    have hk2 : keyIs "links" "public" = false := by decide
    have hk3 : keyIs "links" "links" = true := by decide
    simp only [stepOrigin, hk1, hk2, hk3, if_true, Bool.false_eq_true, if_false,
      decode_encodeLinks]
    rfl
  rw [foldlM_member stepOrigin "links" _ _ _ _ h3]
  rfl

theorem decode_encodeRepository (r : Repository) :
    decodeStruct "Repository" stepRepository Repository.zero (encodeRepository r) = .ok r := by
  unfold encodeRepository decodeStruct
  simp only [List.append_assoc]
  rw [foldlM_omitStr stepRepository "scmId" r.SCM Repository.zero
    ⟨r.SCM, false, "", "", "", Origin.zero⟩ _ rfl (fun h => by rw [h]; rfl)]
  rw [foldlM_omitBool stepRepository "forkable" r.Forkable
    ⟨r.SCM, false, "", "", "", Origin.zero⟩
    ⟨r.SCM, r.Forkable, "", "", "", Origin.zero⟩ _ rfl (fun h => by rw [h])]
  rw [foldlM_omitStr stepRepository "name" r.Name
    ⟨r.SCM, r.Forkable, "", "", "", Origin.zero⟩
    ⟨r.SCM, r.Forkable, r.Name, "", "", Origin.zero⟩ _ rfl (fun h => by rw [h])]
  rw [foldlM_omitStr stepRepository "slug" r.Slug
    ⟨r.SCM, r.Forkable, r.Name, "", "", Origin.zero⟩
    ⟨r.SCM, r.Forkable, r.Name, r.Slug, "", Origin.zero⟩ _ rfl (fun h => by rw [h])]
  rw [foldlM_omitStr stepRepository "id" r.ID
    ⟨r.SCM, r.Forkable, r.Name, r.Slug, "", Origin.zero⟩
    ⟨r.SCM, r.Forkable, r.Name, r.Slug, r.ID, Origin.zero⟩ _ rfl (fun h => by rw [h])]
  have h6 : stepRepository ⟨r.SCM, r.Forkable, r.Name, r.Slug, r.ID, Origin.zero⟩
      "origin" (encodeOrigin r.Origin) = .ok r := by
    have hk1 : keyIs "origin" "scmId" = false := by decide
    have hk2 : keyIs "origin" "forkable" = false := by decide
    have hk3 : keyIs "origin" "name" = false := by decide
    have hk4 : keyIs "origin" "slug" = false := by decide
    have hk5 : keyIs "origin" "id" = false := by decide
    have hk6 : keyIs "origin" "origin" = true := by decide
    simp only [stepRepository, hk1, hk2, hk3, hk4, hk5, hk6, if_true, Bool.false_eq_true,
      if_false, decode_encodeOrigin]
    rfl
  rw [foldlM_member stepRepository "origin" _ _ _ _ h6]
  rfl

theorem Unmarshal_Marshal (r : Repository) : Marshal r >>= Unmarshal = .ok r := by
  simp only [Marshal, bind, Except.bind, Unmarshal]
  exact decode_encodeRepository r

/-- C3: `newRepositoryFromResource` panics on every resource data, at
`d.Get("id").(string)`: `id` is not a key of the schema, so there is no wire
Repository to serialise. The encoding itself loses nothing: every Repository
is got back from its JSON, empty strings and false bools included. -/
theorem roundtrip_from_resource (d : ResourceData) (r : Repository) :
    Get d "id" = none ∧
    newRepositoryFromResource d = none ∧
    (Marshal r >>= Unmarshal) = .ok r :=
  ⟨by simp [Get], newRepositoryFromResource_none d, Unmarshal_Marshal r⟩

end Bitbucket
